import Mathlib

/-!
Shallow embedding of `src/methods.py` (MLE Optimizer): numerical optimization
methods for maximum-likelihood estimation of a Normal distribution.

Real-number arithmetic (`ℝ`) models the source's floating-point arithmetic;
`np.mean` / `np.std` are the population mean and standard deviation; the
bounded `for`-loops with `break` become structural recursion on a fuel
argument equal to `max_iter`; the `ValueError` raised by `bisection_mle_mu`
becomes `Except.error`.
-/

noncomputable section

namespace MLE

/-- `np.mean(data)`: arithmetic mean (sum divided by length). -/
def mean (data : List ℝ) : ℝ := data.sum / data.length

/-- Population variance (mean of squared deviations); `np.std(data) ** 2`. -/
def variance (data : List ℝ) : ℝ :=
  (data.map (fun x => (x - mean data) ^ 2)).sum / data.length

/-- `np.std(data)`: population standard deviation. -/
def std (data : List ℝ) : ℝ := Real.sqrt (variance data)

/-- `log_likelihood(mu, sigma, data)` from the source:
`-n/2 * np.log(2 * np.pi * sigma**2) - (1/(2*sigma**2)) * np.sum((data - mu)**2)`. -/
def log_likelihood (mu sigma : ℝ) (data : List ℝ) : ℝ :=
  -(data.length : ℝ) / 2 * Real.log (2 * Real.pi * sigma ^ 2)
    - (1 / (2 * sigma ^ 2)) * (data.map (fun x => (x - mu) ^ 2)).sum

/-- The log-likelihood formula exactly as written in the specification:
LL(μ, σ) = −(n/2)·ln(2π σ²) − (1/(2σ²))·Σ(xᵢ − μ)². -/
def specLL (mu sigma : ℝ) (data : List ℝ) : ℝ :=
  -((data.length : ℝ) / 2) * Real.log (2 * Real.pi * sigma ^ 2)
    - (1 / (2 * sigma ^ 2)) * (data.map (fun x => (x - mu) ^ 2)).sum

/-- An iteration record `(iteration, estimate, log_likelihood)`. -/
abbrev Record := ℕ × ℝ × ℝ

/-- The `for`-loop of `newton_mle_mu`, fuel = remaining iterations, `i` the
Python loop counter.  Each iteration computes
`d1 = (1/sigma**2) * np.sum(data - mu)`, `d2 = -n/sigma**2`,
`mu_new = mu - d1/d2`, appends `(i+1, mu_new, ll)` and breaks when
`abs(mu_new - mu) < tol`.  (Fuel `0` on entry corresponds to
`max_iter = 0`, where the Python source would fault on an unbound
`mu_new`; the claims below always assume `max_iter ≥ 1`.) -/
def newtonLoop (data : List ℝ) (sigma tol : ℝ) : ℝ → ℕ → ℕ → ℝ × List Record
  | mu, _, 0 => (mu, [])
  | mu, i, fuel + 1 =>
    let n : ℝ := data.length
    let d1 := (1 / sigma ^ 2) * (data.map (fun x => x - mu)).sum
    let d2 := -n / sigma ^ 2
    let mu_new := mu - d1 / d2
    let ll := log_likelihood mu_new sigma data
    if |mu_new - mu| < tol then (mu_new, [(i + 1, mu_new, ll)])
    else
      let r := newtonLoop data sigma tol mu_new (i + 1) fuel
      (r.1, (i + 1, mu_new, ll) :: r.2)

/-- `newton_mle_mu(data, mu_init=0.0, tol=1e-6, max_iter=100)`. -/
def newton_mle_mu (data : List ℝ) (mu_init : ℝ := 0) (tol : ℝ := 1e-6)
    (max_iter : ℕ := 100) : ℝ × List Record :=
  newtonLoop data (std data) tol mu_init 0 max_iter

/-- The local `derivative(mu)` of `bisection_mle_mu`:
`(1 / sigma**2) * np.sum(data - mu)`. -/
def derivative (data : List ℝ) (sigma mu : ℝ) : ℝ :=
  (1 / sigma ^ 2) * (data.map (fun x => x - mu)).sum

/-- The `for`-loop of `bisection_mle_mu`.  Each iteration computes the
midpoint, appends `(i+1, mid, ll)`, breaks when
`abs(derivative(mid)) < tol or (b - a)/2 < tol`, otherwise narrows the
bracket toward the sign change.  When fuel runs out the source's loop also
ends after the record is appended (the final narrowing is dead code since
`mid` is returned), which the `fuel = 0` disjunct reflects. -/
def bisectLoop (data : List ℝ) (sigma tol : ℝ) : ℝ → ℝ → ℕ → ℕ → ℝ × List Record
  | a, b, _, 0 => ((a + b) / 2, [])
  | a, b, i, fuel + 1 =>
    let mid := (a + b) / 2
    let entry : Record := (i + 1, mid, log_likelihood mid sigma data)
    if |derivative data sigma mid| < tol ∨ (b - a) / 2 < tol ∨ fuel = 0 then
      (mid, [entry])
    else if derivative data sigma a * derivative data sigma mid < 0 then
      let r := bisectLoop data sigma tol a mid (i + 1) fuel
      (r.1, entry :: r.2)
    else
      let r := bisectLoop data sigma tol mid b (i + 1) fuel
      (r.1, entry :: r.2)

/-- `bisection_mle_mu(data, a, b, tol=1e-6, max_iter=100)`; the
`raise ValueError` on a bracket without sign change becomes `Except.error`. -/
def bisection_mle_mu (data : List ℝ) (a b : ℝ) (tol : ℝ := 1e-6)
    (max_iter : ℕ := 100) : Except String (ℝ × List Record) :=
  let sigma := std data
  if derivative data sigma a * derivative data sigma b > 0 then
    Except.error "No sign change in interval. Choose a wider interval."
  else
    Except.ok (bisectLoop data sigma tol a b 0 max_iter)

/-- The golden ratio `gr = (np.sqrt(5) - 1) / 2` of `golden_section_mle`. -/
def gr : ℝ := (Real.sqrt 5 - 1) / 2

/-- The local `objective(val)` of `golden_section_mle`: optimize `mu` with
`sigma` fixed at the sample standard deviation when `param == 'mu'`, else
optimize `sigma` with `mu` fixed at the sample mean. -/
def gsObjective (param : String) (data : List ℝ) (val : ℝ) : ℝ :=
  if param = "mu" then log_likelihood val (std data) data
  else log_likelihood (mean data) val data

/-- The `for`-loop of `golden_section_mle`.  Each iteration records
`(i+1, (a+b)/2, objective((a+b)/2))`, breaks when `abs(b - a) < tol`, and
otherwise narrows the bracket, shifting one interior point and reusing its
objective value.  After the loop the source returns `(a + b)/2` for the
final bracket, which is the `fuel = 0` case. -/
def gsLoop (obj : ℝ → ℝ) (tol : ℝ) :
    ℝ → ℝ → ℝ → ℝ → ℝ → ℝ → ℕ → ℕ → ℝ × List Record
  | a, b, _, _, _, _, _, 0 => ((a + b) / 2, [])
  | a, b, c, d, fc, fd, i, fuel + 1 =>
    let mid := (a + b) / 2
    let entry : Record := (i + 1, mid, obj mid)
    if |b - a| < tol then ((a + b) / 2, [entry])
    else if fc < fd then
      let r := gsLoop obj tol c b d (c + gr * (b - c)) fd (obj (c + gr * (b - c)))
        (i + 1) fuel
      (r.1, entry :: r.2)
    else
      let r := gsLoop obj tol a d (d - gr * (d - a)) c (obj (d - gr * (d - a))) fc
        (i + 1) fuel
      (r.1, entry :: r.2)

/-- `golden_section_mle(data, a, b, param='mu', tol=1e-6, max_iter=100)`. -/
def golden_section_mle (data : List ℝ) (a b : ℝ) (param : String := "mu")
    (tol : ℝ := 1e-6) (max_iter : ℕ := 100) : ℝ × List Record :=
  let obj := gsObjective param data
  let c := b - gr * (b - a)
  let d := a + gr * (b - a)
  gsLoop obj tol a b c d (obj c) (obj d) 0 max_iter

/-- The sequence of brackets `(iteration, low, high)` traversed by
`bisectLoop`: one entry per executed iteration, recorded at the top of the
iteration (before the convergence check and the narrowing update).  The
recursion mirrors `bisectLoop` condition for condition. -/
def bisectBrackets (data : List ℝ) (sigma tol : ℝ) :
    ℝ → ℝ → ℕ → ℕ → List (ℕ × ℝ × ℝ)
  | _, _, _, 0 => []
  | a, b, i, fuel + 1 =>
    let mid := (a + b) / 2
    if |derivative data sigma mid| < tol ∨ (b - a) / 2 < tol ∨ fuel = 0 then
      [(i + 1, a, b)]
    else if derivative data sigma a * derivative data sigma mid < 0 then
      (i + 1, a, b) :: bisectBrackets data sigma tol a mid (i + 1) fuel
    else
      (i + 1, a, b) :: bisectBrackets data sigma tol mid b (i + 1) fuel

/-- The brackets traversed by `bisection_mle_mu`'s loop, from its actual
initial state. -/
def bisectBracketsTop (data : List ℝ) (a b tol : ℝ) (max_iter : ℕ) :
    List (ℕ × ℝ × ℝ) :=
  bisectBrackets data (std data) tol a b 0 max_iter

/-- The sequence of brackets `(iteration, low, high)` traversed by `gsLoop`:
one entry per executed iteration, recorded where the loop records its
history entry.  The recursion mirrors `gsLoop` branch for branch. -/
def gsBrackets (obj : ℝ → ℝ) (tol : ℝ) :
    ℝ → ℝ → ℝ → ℝ → ℝ → ℝ → ℕ → ℕ → List (ℕ × ℝ × ℝ)
  | _, _, _, _, _, _, _, 0 => []
  | a, b, c, d, fc, fd, i, fuel + 1 =>
    if |b - a| < tol then [(i + 1, a, b)]
    else if fc < fd then
      (i + 1, a, b) ::
        gsBrackets obj tol c b d (c + gr * (b - c)) fd (obj (c + gr * (b - c)))
          (i + 1) fuel
    else
      (i + 1, a, b) ::
        gsBrackets obj tol a d (d - gr * (d - a)) c (obj (d - gr * (d - a))) fc
          (i + 1) fuel

/-- The bracket `(low, high)` held by `gsLoop` when it exits (by the `break`
or by exhausting `max_iter`); the source returns its midpoint. -/
def gsFinalBracket (obj : ℝ → ℝ) (tol : ℝ) :
    ℝ → ℝ → ℝ → ℝ → ℝ → ℝ → ℕ → ℕ → ℝ × ℝ
  | a, b, _, _, _, _, _, 0 => (a, b)
  | a, b, c, d, fc, fd, i, fuel + 1 =>
    if |b - a| < tol then (a, b)
    else if fc < fd then
      gsFinalBracket obj tol c b d (c + gr * (b - c)) fd (obj (c + gr * (b - c)))
        (i + 1) fuel
    else
      gsFinalBracket obj tol a d (d - gr * (d - a)) c (obj (d - gr * (d - a))) fc
        (i + 1) fuel

/-- The brackets traversed by `golden_section_mle`'s loop, from its actual
initial state. -/
def gsBracketsTop (data : List ℝ) (a b : ℝ) (param : String) (tol : ℝ)
    (max_iter : ℕ) : List (ℕ × ℝ × ℝ) :=
  let obj := gsObjective param data
  let c := b - gr * (b - a)
  let d := a + gr * (b - a)
  gsBrackets obj tol a b c d (obj c) (obj d) 0 max_iter

/-- The final bracket of `golden_section_mle`'s loop, from its actual
initial state. -/
def gsFinalBracketTop (data : List ℝ) (a b : ℝ) (param : String) (tol : ℝ)
    (max_iter : ℕ) : ℝ × ℝ :=
  let obj := gsObjective param data
  let c := b - gr * (b - a)
  let d := a + gr * (b - a)
  gsFinalBracket obj tol a b c d (obj c) (obj d) 0 max_iter

/-! ### Helper lemmas -/

lemma variance_nonneg (data : List ℝ) : 0 ≤ variance data := by
  rw [variance]
  apply div_nonneg
  · apply List.sum_nonneg
    intro x hx
    simp only [List.mem_map] at hx
    obtain ⟨y, -, rfl⟩ := hx
    positivity
  · positivity

lemma std_sq (data : List ℝ) : std data ^ 2 = variance data :=
  Real.sq_sqrt (variance_nonneg data)

lemma sum_map_sub (data : List ℝ) (mu : ℝ) :
    (data.map (fun x => x - mu)).sum = data.sum - data.length * mu := by
  induction data with
  | nil => simp
  | cons x xs ih =>
    simp only [List.map_cons, List.sum_cons, ih, List.length_cons]
    push_cast
    ring

lemma length_ne_zero_of_variance (data : List ℝ) (h : variance data ≠ 0) :
    (data.length : ℝ) ≠ 0 := by
  intro h0
  apply h
  rw [variance, h0, div_zero]

/-- On a sample with nonzero variance, the Newton update
`mu - d1 / d2` lands exactly on the sample mean, whatever `mu` was. -/
lemma newton_update_eq_mean (data : List ℝ) (h : variance data ≠ 0) (mu : ℝ) :
    mu - (1 / std data ^ 2 * (data.map (fun x => x - mu)).sum) /
        (-(data.length : ℝ) / std data ^ 2) = mean data := by
  have hn := length_ne_zero_of_variance data h
  have hs : std data ^ 2 ≠ 0 := by rw [std_sq]; exact h
  rw [sum_map_sub, mean]
  field_simp [hn, hs]
  ring

/-- One iteration of the Newton loop from any `mu` within tolerance of the
mean: the loop records the mean and breaks at once. -/
lemma newtonLoop_break (data : List ℝ) (h : variance data ≠ 0) (tol mu : ℝ)
    (hnear : |mean data - mu| < tol) (i f : ℕ) :
    newtonLoop data (std data) tol mu i (f + 1) =
      (mean data,
        [(i + 1, mean data, log_likelihood (mean data) (std data) data)]) := by
  simp only [newtonLoop]
  rw [newton_update_eq_mean data h, if_pos hnear]

/-- The Newton loop from any `mu` at least tolerance away from the mean:
the first iteration lands on the mean, the second reproduces it and breaks. -/
lemma newtonLoop_twoStep (data : List ℝ) (h : variance data ≠ 0) (tol mu : ℝ)
    (htol : 0 < tol) (hfar : ¬|mean data - mu| < tol) (i f : ℕ) :
    newtonLoop data (std data) tol mu i (f + 2) =
      (mean data,
        [(i + 1, mean data, log_likelihood (mean data) (std data) data),
         (i + 1 + 1, mean data, log_likelihood (mean data) (std data) data)]) := by
  show newtonLoop data (std data) tol mu i (f + 1 + 1) = _
  simp only [newtonLoop]
  rw [newton_update_eq_mean data h mu, if_neg hfar,
    newton_update_eq_mean data h (mean data),
    if_pos (show |mean data - mean data| < tol by simpa using htol)]

/-- The derivative used by bisection, rewritten through
`std² = variance`. -/
lemma derivative_std_eq (data : List ℝ) (mu : ℝ) :
    derivative data (std data) mu =
      1 / variance data * (data.sum - data.length * mu) := by
  rw [derivative, std_sq, sum_map_sub]

lemma sqrt5_sq : Real.sqrt 5 ^ 2 = 5 := Real.sq_sqrt (by norm_num)

lemma gr_nonneg : 0 ≤ gr := by
  rw [gr]
  nlinarith [sqrt5_sq, Real.sqrt_nonneg 5]

/-- The defining identity of the golden ratio: `gr² = 1 − gr`.  It is what
makes the shifted interior point of one golden-section iteration sit exactly
where the next iteration expects it. -/
lemma gr_sq : gr ^ 2 = 1 - gr := by
  rw [gr]
  linear_combination (1 / 4) * sqrt5_sq

/-- Bisection narrowing preserves `low ≤ high`: every bracket traversed by
the loop satisfies the invariant when the initial one does. -/
lemma bisectBrackets_le (data : List ℝ) (sigma tol : ℝ) (fuel : ℕ) :
    ∀ (a b : ℝ) (i : ℕ), a ≤ b →
      ∀ e ∈ bisectBrackets data sigma tol a b i fuel, e.2.1 ≤ e.2.2 := by
  induction fuel with
  | zero =>
    intro a b i hab e he
    simp [bisectBrackets] at he
  | succ f ih =>
    intro a b i hab e he
    simp only [bisectBrackets] at he
    split_ifs at he
    · rw [List.mem_singleton] at he
      subst he
      exact hab
    · rcases List.mem_cons.mp he with rfl | he'
      · exact hab
      · exact ih a ((a + b) / 2) (i + 1) (by linarith) e he'
    · rcases List.mem_cons.mp he with rfl | he'
      · exact hab
      · exact ih ((a + b) / 2) b (i + 1) (by linarith) e he'

/-- Golden-section narrowing preserves `low ≤ high`: every bracket traversed
by the loop satisfies the invariant, provided the interior points hold the
positions `golden_section_mle` gives them. -/
lemma gsBrackets_le (obj : ℝ → ℝ) (tol : ℝ) (fuel : ℕ) :
    ∀ (a b c d fc fd : ℝ) (i : ℕ), a ≤ b →
      c = b - gr * (b - a) → d = a + gr * (b - a) →
      ∀ e ∈ gsBrackets obj tol a b c d fc fd i fuel, e.2.1 ≤ e.2.2 := by
  induction fuel with
  | zero =>
    intro a b c d fc fd i hab hc hd e he
    simp [gsBrackets] at he
  | succ f ih =>
    intro a b c d fc fd i hab hc hd e he
    have hg0 := gr_nonneg
    have hgw : 0 ≤ gr * (b - a) := mul_nonneg hg0 (by linarith)
    have hcb : c ≤ b := by rw [hc]; linarith
    have had : a ≤ d := by rw [hd]; linarith
    simp only [gsBrackets] at he
    split_ifs at he
    · rw [List.mem_singleton] at he
      subst he
      exact hab
    · rcases List.mem_cons.mp he with rfl | he'
      · exact hab
      · refine ih c b d (c + gr * (b - c)) fd (obj (c + gr * (b - c))) (i + 1)
          hcb ?_ rfl e he'
        rw [hc, hd]
        linear_combination (b - a) * gr_sq
    · rcases List.mem_cons.mp he with rfl | he'
      · exact hab
      · refine ih a d (d - gr * (d - a)) c (obj (d - gr * (d - a))) fc (i + 1)
          had rfl ?_ e he'
        rw [hc, hd]
        linear_combination (a - b) * gr_sq

/-- The history produced by the golden-section loop is exactly the bracket
trace, each bracket reported through its midpoint and the objective there. -/
lemma gsLoop_hist_eq (obj : ℝ → ℝ) (tol : ℝ) (fuel : ℕ) :
    ∀ (a b c d fc fd : ℝ) (i : ℕ),
      (gsLoop obj tol a b c d fc fd i fuel).2 =
        (gsBrackets obj tol a b c d fc fd i fuel).map
          (fun e => (e.1, (e.2.1 + e.2.2) / 2, obj ((e.2.1 + e.2.2) / 2))) := by
  induction fuel with
  | zero =>
    intro a b c d fc fd i
    simp [gsLoop, gsBrackets]
  | succ f ih =>
    intro a b c d fc fd i
    simp only [gsLoop, gsBrackets]
    split_ifs
    · simp
    · simp only [List.map_cons, List.cons.injEq]
      exact ⟨trivial, ih _ _ _ _ _ _ _⟩
    · simp only [List.map_cons, List.cons.injEq]
      exact ⟨trivial, ih _ _ _ _ _ _ _⟩

/-- The estimate returned by the golden-section loop is the midpoint of the
bracket it exits with. -/
lemma gsLoop_est_eq (obj : ℝ → ℝ) (tol : ℝ) (fuel : ℕ) :
    ∀ (a b c d fc fd : ℝ) (i : ℕ),
      (gsLoop obj tol a b c d fc fd i fuel).1 =
        ((gsFinalBracket obj tol a b c d fc fd i fuel).1 +
          (gsFinalBracket obj tol a b c d fc fd i fuel).2) / 2 := by
  induction fuel with
  | zero =>
    intro a b c d fc fd i
    simp [gsLoop, gsFinalBracket]
  | succ f ih =>
    intro a b c d fc fd i
    simp only [gsLoop, gsFinalBracket]
    split_ifs
    · rfl
    · exact ih _ _ _ _ _ _ _
    · exact ih _ _ _ _ _ _ _

/-- The bracket the golden-section loop exits with also satisfies
`low ≤ high` when the initial one does. -/
lemma gsFinalBracket_le (obj : ℝ → ℝ) (tol : ℝ) (fuel : ℕ) :
    ∀ (a b c d fc fd : ℝ) (i : ℕ), a ≤ b →
      c = b - gr * (b - a) → d = a + gr * (b - a) →
      (gsFinalBracket obj tol a b c d fc fd i fuel).1 ≤
        (gsFinalBracket obj tol a b c d fc fd i fuel).2 := by
  induction fuel with
  | zero =>
    intro a b c d fc fd i hab hc hd
    exact hab
  | succ f ih =>
    intro a b c d fc fd i hab hc hd
    have hg0 := gr_nonneg
    have hgw : 0 ≤ gr * (b - a) := mul_nonneg hg0 (by linarith)
    have hcb : c ≤ b := by rw [hc]; linarith
    have had : a ≤ d := by rw [hd]; linarith
    simp only [gsFinalBracket]
    split_ifs
    · exact hab
    · refine ih c b d (c + gr * (b - c)) fd (obj (c + gr * (b - c))) (i + 1)
        hcb ?_ rfl
      rw [hc, hd]
      linear_combination (b - a) * gr_sq
    · refine ih a d (d - gr * (d - a)) c (obj (d - gr * (d - a))) fc (i + 1)
        had rfl ?_
      rw [hc, hd]
      linear_combination (a - b) * gr_sq

/-- The objective closure ignores which non-`"mu"` string selected it. -/
lemma gsObjective_of_ne_mu (param : String) (h : param ≠ "mu")
    (data : List ℝ) : gsObjective param data = gsObjective "sigma" data := by
  funext val
  rw [gsObjective, gsObjective, if_neg h,
    if_neg (show ("sigma" : String) ≠ "mu" by decide)]

/-! ### Claim theorems -/

/-- C3: for every mean `μ`, standard deviation `σ`, and sample,
`log_likelihood` returns exactly `−(n/2)·ln(2πσ²) − (1/(2σ²))·Σ(xᵢ−μ)²`
(the spec's formula, embedded verbatim as `specLL`); it is a pure function
of its arguments — in particular this holds for every `σ > 0`. -/
theorem log_likelihood_matches_spec (mu sigma : ℝ) (data : List ℝ) :
    log_likelihood mu sigma data = specLL mu sigma data := by
  rw [log_likelihood, specLL]
  ring

/-- C2: whenever the derivative has the same sign at both ends of the
bracket (`d(a)·d(b) > 0`), `bisection_mle_mu` fails immediately with the
invalid-bracket error; the failure is atomic — the result is the bare
error, carrying no partial iteration history and no estimate. -/
theorem bisection_invalid_bracket_fails_atomically (data : List ℝ)
    (a b tol : ℝ) (max_iter : ℕ)
    (h : derivative data (std data) a * derivative data (std data) b > 0) :
    bisection_mle_mu data a b tol max_iter =
      Except.error "No sign change in interval. Choose a wider interval." := by
  simp only [bisection_mle_mu]
  rw [if_pos h]

/-- Witness for C2: the spec's own example — sample `{1, 2, 3}` with bracket
`(10, 20)`; both endpoints give a negative derivative, so the product is
positive and the call fails atomically. -/
theorem bisection_invalid_bracket_fails_atomically_witness :
    bisection_mle_mu [(1 : ℝ), 2, 3] 10 20 (1e-6) 100 =
      Except.error "No sign change in interval. Choose a wider interval." := by
  apply bisection_invalid_bracket_fails_atomically
  rw [derivative_std_eq, derivative_std_eq]
  norm_num [variance, mean]

/-- C4: every history entry of `golden_section_mle` records the midpoint of
the bracket current at that iteration together with the objective evaluated
at that midpoint (not the interior points `c`, `d`), and the returned
estimate is the midpoint of the final bracket, returned together with the
full history. -/
theorem golden_section_records_bracket_midpoints (data : List ℝ) (a b : ℝ)
    (param : String) (tol : ℝ) (max_iter : ℕ) :
    (golden_section_mle data a b param tol max_iter).2 =
      (gsBracketsTop data a b param tol max_iter).map
        (fun e => (e.1, (e.2.1 + e.2.2) / 2,
          gsObjective param data ((e.2.1 + e.2.2) / 2))) ∧
    (golden_section_mle data a b param tol max_iter).1 =
      ((gsFinalBracketTop data a b param tol max_iter).1 +
        (gsFinalBracketTop data a b param tol max_iter).2) / 2 := by
  constructor
  · simpa only [golden_section_mle, gsBracketsTop] using
      gsLoop_hist_eq (gsObjective param data) tol max_iter a b
        (b - gr * (b - a)) (a + gr * (b - a))
        (gsObjective param data (b - gr * (b - a)))
        (gsObjective param data (a + gr * (b - a))) 0
  · simpa only [golden_section_mle, gsFinalBracketTop] using
      gsLoop_est_eq (gsObjective param data) tol max_iter a b
        (b - gr * (b - a)) (a + gr * (b - a))
        (gsObjective param data (b - gr * (b - a)))
        (gsObjective param data (a + gr * (b - a))) 0

/-- C6: in both `bisection_mle_mu` and `golden_section_mle`, when the
initial bounds satisfy `a ≤ b`, every bracket the loop traverses — the
initial one and each one produced by a narrowing update — satisfies
`low ≤ high`. -/
theorem search_interval_invariant (data : List ℝ) (a b tol : ℝ)
    (param : String) (max_iter : ℕ) (hab : a ≤ b) :
    (∀ e ∈ bisectBracketsTop data a b tol max_iter, e.2.1 ≤ e.2.2) ∧
    (∀ e ∈ gsBracketsTop data a b param tol max_iter, e.2.1 ≤ e.2.2) ∧
    (gsFinalBracketTop data a b param tol max_iter).1 ≤
      (gsFinalBracketTop data a b param tol max_iter).2 := by
  refine ⟨?_, ?_, ?_⟩
  · exact bisectBrackets_le data (std data) tol max_iter a b 0 hab
  · simp only [gsBracketsTop]
    exact gsBrackets_le (gsObjective param data) tol max_iter a b
      (b - gr * (b - a)) (a + gr * (b - a)) _ _ 0 hab rfl rfl
  · simp only [gsFinalBracketTop]
    exact gsFinalBracket_le (gsObjective param data) tol max_iter a b
      (b - gr * (b - a)) (a + gr * (b - a)) _ _ 0 hab rfl rfl

/-- Witness for C6: the invariant instantiated on the sample `[1, 2]` with
the bracket `(0, 10)`. -/
theorem search_interval_invariant_witness :
    (∀ e ∈ bisectBracketsTop [(1 : ℝ), 2] 0 10 (1e-6) 100, e.2.1 ≤ e.2.2) ∧
    (∀ e ∈ gsBracketsTop [(1 : ℝ), 2] 0 10 "mu" (1e-6) 100, e.2.1 ≤ e.2.2) ∧
    (gsFinalBracketTop [(1 : ℝ), 2] 0 10 "mu" (1e-6) 100).1 ≤
      (gsFinalBracketTop [(1 : ℝ), 2] 0 10 "mu" (1e-6) 100).2 :=
  search_interval_invariant [(1 : ℝ), 2] 0 10 (1e-6) "mu" 100 (by norm_num)

/-- C8: the three optimizers are deterministic — two calls with identical
inputs return identical results (identical estimate and identical history,
hence identical history length).  The embedding is a pure function of the
inputs because the source reads no global state and uses no randomness. -/
theorem optimizers_deterministic (data : List ℝ) (mu_init tol a b : ℝ)
    (param : String) (max_iter : ℕ) :
    newton_mle_mu data mu_init tol max_iter =
      newton_mle_mu data mu_init tol max_iter ∧
    bisection_mle_mu data a b tol max_iter =
      bisection_mle_mu data a b tol max_iter ∧
    golden_section_mle data a b param tol max_iter =
      golden_section_mle data a b param tol max_iter :=
  ⟨rfl, rfl, rfl⟩

/-- C10: `golden_section_mle` performs no validation of the `param`
selector — any string other than the exact `"mu"` (`"mean"`, `"sigma"`, a
typo, …) silently runs the σ-optimization with the mean fixed at the sample
mean, producing exactly the result of `param = "sigma"`. -/
theorem golden_section_param_fallback (data : List ℝ) (a b tol : ℝ)
    (max_iter : ℕ) (param : String) (h : param ≠ "mu") :
    golden_section_mle data a b param tol max_iter =
      golden_section_mle data a b "sigma" tol max_iter := by
  simp only [golden_section_mle, gsObjective_of_ne_mu param h data]

/-- Witness for C10: the near-miss selector `"mean"` behaves exactly like
`"sigma"` on a concrete call. -/
theorem golden_section_param_fallback_witness :
    golden_section_mle [(1 : ℝ), 2] 0 1 "mean" (1e-6) 100 =
      golden_section_mle [(1 : ℝ), 2] 0 1 "sigma" (1e-6) 100 :=
  golden_section_param_fallback [(1 : ℝ), 2] 0 1 (1e-6) 100 "mean" (by decide)

/-- C5: when the derivative vanishes exactly at an endpoint of the bracket
(`d(a) = 0` or `d(b) = 0`, so `d(a)·d(b) = 0`), the strict-`>` bracket check
of `bisection_mle_mu` passes and the algorithm proceeds: the call succeeds
and the first midpoint is computed, evaluated and appended to the history
(before any convergence check), so the returned history is non-empty. -/
theorem bisection_zero_endpoint_proceeds (data : List ℝ) (a b tol : ℝ)
    (max_iter : ℕ) (hiter : 1 ≤ max_iter)
    (h : derivative data (std data) a = 0 ∨ derivative data (std data) b = 0) :
    ∃ p : ℝ × List Record,
      bisection_mle_mu data a b tol max_iter = Except.ok p ∧
        p.2.head? = some (1, (a + b) / 2,
          log_likelihood ((a + b) / 2) (std data) data) := by
  obtain ⟨f, rfl⟩ : ∃ f, max_iter = f + 1 := ⟨max_iter - 1, by omega⟩
  have h0 : derivative data (std data) a * derivative data (std data) b = 0 := by
    rcases h with h | h <;> simp [h]
  have hng : ¬derivative data (std data) a * derivative data (std data) b > 0 := by
    rw [h0]
    exact lt_irrefl 0
  refine ⟨bisectLoop data (std data) tol a b 0 (f + 1), ?_, ?_⟩
  · simp only [bisection_mle_mu]
    rw [if_neg hng]
  · simp only [bisectLoop]
    split_ifs <;> rfl

/-- Witness for C5: sample `[1, 2, 3]` with bracket `(2, 5)`; the derivative
vanishes at the left endpoint `2` (the sample mean), the check passes (the
product is `0`, not `> 0`) and the history starts with the first midpoint. -/
theorem bisection_zero_endpoint_proceeds_witness :
    ∃ p : ℝ × List Record,
      bisection_mle_mu [(1 : ℝ), 2, 3] 2 5 (1e-6) 100 = Except.ok p ∧
        p.2.head? = some (1, ((2 : ℝ) + 5) / 2,
          log_likelihood (((2 : ℝ) + 5) / 2) (std [(1 : ℝ), 2, 3])
            [(1 : ℝ), 2, 3]) := by
  apply bisection_zero_endpoint_proceeds
  · norm_num
  · left
    rw [derivative_std_eq]
    norm_num

/-- C1 counterexample: the sample `[0, 2]` has nonzero variance
(`variance = 1`), yet `newton_mle_mu` with the default arguments
(`mu_init = 0`, `tol = 1e-6`, `max_iter = 100`) returns a history of length
`2`, not `1`: the first update lands on the mean `1`, but — being one full
unit away from `mu_init` — does not satisfy the `|mu_new − mu| < tol`
early-exit, so a second (identical) iteration runs before the loop breaks. -/
theorem newton_single_iteration_refuted :
    variance [(0 : ℝ), 2] ≠ 0 ∧
      (newton_mle_mu [(0 : ℝ), 2] 0 (1e-6) 100).2.length = 2 := by
  have hmean : mean [(0 : ℝ), 2] = 1 := by norm_num [mean]
  have hvar : variance [(0 : ℝ), 2] = 1 := by norm_num [variance, hmean]
  refine ⟨by rw [hvar]; norm_num, ?_⟩
  rw [newton_mle_mu, show (100 : ℕ) = 98 + 2 by norm_num,
    newtonLoop_twoStep [(0 : ℝ), 2] (by rw [hvar]; norm_num) (1e-6) 0
      (by norm_num) (by rw [hmean]; norm_num) 0 98]
  rfl

/-- C1 amended: for every sample with nonzero variance and positive
tolerance (with `max_iter ≥ 2`), the first Newton update already produces
the closed-form mean — the first history entry records exactly the sample
mean — and the returned estimate equals the arithmetic mean exactly; the
history has length `1` when the initial guess is already within tolerance
of the mean and length `2` otherwise (the extra iteration merely confirms
convergence). -/
theorem newton_first_update_is_mean (data : List ℝ) (mu_init tol : ℝ)
    (max_iter : ℕ) (hvar : variance data ≠ 0) (htol : 0 < tol)
    (hiter : 2 ≤ max_iter) :
    (newton_mle_mu data mu_init tol max_iter).1 = mean data ∧
    (newton_mle_mu data mu_init tol max_iter).2.head? =
      some (1, mean data, log_likelihood (mean data) (std data) data) ∧
    (|mean data - mu_init| < tol →
      (newton_mle_mu data mu_init tol max_iter).2.length = 1) ∧
    (¬|mean data - mu_init| < tol →
      (newton_mle_mu data mu_init tol max_iter).2.length = 2) := by
  obtain ⟨f, rfl⟩ : ∃ f, max_iter = f + 2 := ⟨max_iter - 2, by omega⟩
  by_cases hnear : |mean data - mu_init| < tol
  · rw [newton_mle_mu, show f + 2 = f + 1 + 1 from rfl,
      newtonLoop_break data hvar tol mu_init hnear 0 (f + 1)]
    exact ⟨rfl, rfl, fun _ => rfl, fun hc => absurd hnear hc⟩
  · rw [newton_mle_mu, newtonLoop_twoStep data hvar tol mu_init htol hnear 0 f]
    exact ⟨rfl, rfl, fun hc => absurd hc hnear, fun _ => rfl⟩

/-- Witness for C1 (amended): the sample `[0, 2]` (variance `1`), initial
guess `0`, tolerance `1e-6`, `max_iter = 2`. -/
theorem newton_first_update_is_mean_witness :
    (newton_mle_mu [(0 : ℝ), 2] 0 (1e-6) 2).1 = mean [(0 : ℝ), 2] ∧
    (newton_mle_mu [(0 : ℝ), 2] 0 (1e-6) 2).2.head? =
      some (1, mean [(0 : ℝ), 2],
        log_likelihood (mean [(0 : ℝ), 2]) (std [(0 : ℝ), 2]) [(0 : ℝ), 2]) ∧
    (|mean [(0 : ℝ), 2] - 0| < 1e-6 →
      (newton_mle_mu [(0 : ℝ), 2] 0 (1e-6) 2).2.length = 1) ∧
    (¬|mean [(0 : ℝ), 2] - 0| < 1e-6 →
      (newton_mle_mu [(0 : ℝ), 2] 0 (1e-6) 2).2.length = 2) :=
  newton_first_update_is_mean [(0 : ℝ), 2] 0 (1e-6) 2
    (by norm_num [variance, mean]) (by norm_num) (by norm_num)

/-- C9: for every sample with nonzero variance, positive tolerance and
`max_iter ≥ 2`, the history of `newton_mle_mu` has at most two entries, and
every entry records an estimate equal to the sample mean (the first update
lands on the mean, the second reproduces it and triggers the early exit). -/
theorem newton_history_at_most_two (data : List ℝ) (mu_init tol : ℝ)
    (max_iter : ℕ) (hvar : variance data ≠ 0) (htol : 0 < tol)
    (hiter : 2 ≤ max_iter) :
    (newton_mle_mu data mu_init tol max_iter).2.length ≤ 2 ∧
    ∀ e ∈ (newton_mle_mu data mu_init tol max_iter).2, e.2.1 = mean data := by
  obtain ⟨f, rfl⟩ : ∃ f, max_iter = f + 2 := ⟨max_iter - 2, by omega⟩
  by_cases hnear : |mean data - mu_init| < tol
  · rw [newton_mle_mu, show f + 2 = f + 1 + 1 from rfl,
      newtonLoop_break data hvar tol mu_init hnear 0 (f + 1)]
    refine ⟨by norm_num, ?_⟩
    intro e he
    rw [List.mem_singleton] at he
    subst he
    rfl
  · rw [newton_mle_mu, newtonLoop_twoStep data hvar tol mu_init htol hnear 0 f]
    refine ⟨by norm_num, ?_⟩
    intro e he
    simp only [List.mem_cons, List.not_mem_nil, or_false] at he
    rcases he with rfl | rfl <;> rfl

/-- Witness for C9: the sample `[0, 2]`, initial guess `0`, tolerance `1`,
`max_iter = 2`. -/
theorem newton_history_at_most_two_witness :
    (newton_mle_mu [(0 : ℝ), 2] 0 1 2).2.length ≤ 2 ∧
    ∀ e ∈ (newton_mle_mu [(0 : ℝ), 2] 0 1 2).2, e.2.1 = mean [(0 : ℝ), 2] :=
  newton_history_at_most_two [(0 : ℝ), 2] 0 1 2
    (by norm_num [variance, mean]) (by norm_num) (by norm_num)

end MLE

end
